import Mathlib

/-!
Verification of the CORS middleware logic of `caddy-cors` (`cors.go`).

The embedding models the pure decision and header-writing logic of the
middleware.  HTTP header maps are modelled as association lists of
`String × String` pairs, with `Get`/`Set` semantics matching Go's
`http.Header.Get` (first value, `""` when absent) and `http.Header.Set`
(replace all values for the key with a single value), which are the only
operations the middleware uses.  Go's `regexp.MatchString` is an external
library call; it is abstracted as a parameter of type
`String → String → Option Bool`, where `none` models a compile/match error
(`err != nil`) and `some b` models a successful match returning `b`.
The downstream handler is modelled by counting how many times the
middleware invokes it (`nextCalls`): both exit paths of `ServeHTTP` in the
source end in `return next.ServeHTTP(w, r)`.
-/

namespace CaddyCors

/-- The middleware configuration, from the `Cors` struct of `cors.go`
(the `logger` field carries no decision-relevant state and is omitted). -/
structure Cors where
  allowedOrigins : List String
  overrideExistingCors : Bool
  allowedMethods : List String
  allowCredentials : Bool
  maxAge : Int
  allowedHeaders : List String
  exposedHeaders : List String
deriving Repr, DecidableEq

/-- A response header map: association list with map semantics. -/
abbrev Headers := List (String × String)

/-- `http.Header.Get`: first value stored under the key, `""` when absent. -/
def headerGet (w : Headers) (name : String) : String :=
  match w.find? (fun p => p.1 == name) with
  | some p => p.2
  | none => ""

/-- `http.Header.Set`: replace every value stored under the key by the
single given value. -/
def headerSet (w : Headers) (name value : String) : Headers :=
  (name, value) :: w.filter (fun p => p.1 ≠ name)

/-- The per-request data `ServeHTTP` reads: the method and the request
header map (read through `r.Header.Get`). -/
structure Request where
  method : String
  headers : Headers
deriving Repr, DecidableEq

/-- `r.Header.Get` on the request. -/
def Request.getHeader (r : Request) (name : String) : String :=
  headerGet r.headers name

/-- Go's `strings.HasPrefix`, modelled on the character lists of the
strings (Lean's builtin `String.startsWith` is not kernel-reducible). -/
def strStartsWith (s p : String) : Bool :=
  p.data.isPrefixOf s.data

/-- Go's `strings.HasSuffix`, modelled on the character lists. -/
def strEndsWith (s p : String) : Bool :=
  p.data.isSuffixOf s.data

/-- Go's `strings.Contains` specialised to a one-character needle, as
used by `Validate` with `","`. -/
def strContainsChar (s : String) (ch : Char) : Bool :=
  s.data.contains ch

/-- First defaulting step of `Cors.Provision`: empty `AllowedOrigins`
becomes `["*"]`. -/
def defaultOrigins (c : Cors) : Cors :=
  if c.allowedOrigins = [] then { c with allowedOrigins := ["*"] } else c

/-- Second defaulting step of `Cors.Provision`: empty `AllowedMethods`
becomes the six standard methods. -/
def defaultMethods (c : Cors) : Cors :=
  if c.allowedMethods = [] then
    { c with allowedMethods := ["GET", "POST", "PUT", "DELETE", "PATCH", "OPTIONS"] }
  else c

/-- Third defaulting step of `Cors.Provision`: `MaxAge` 0 becomes 5. -/
def defaultMaxAge (c : Cors) : Cors :=
  if c.maxAge = 0 then { c with maxAge := 5 } else c

/-- `Cors.Provision` (defaulting logic only; logging omitted): the three
defaulting steps applied in source order. -/
def provision (c : Cors) : Cors :=
  defaultMaxAge (defaultMethods (defaultOrigins c))

/-- First step of `Cors.Validate`: cap `MaxAge` at 86400. -/
def clampMaxAge (c : Cors) : Cors :=
  if c.maxAge > 86400 then { c with maxAge := 86400 } else c

/-- `Cors.Validate`: cap `MaxAge` at 86400, then reject any allowed
method containing a comma. -/
def validate (c : Cors) : Except String Cors :=
  let c := clampMaxAge c
  if c.allowedMethods.any (fun mth => strContainsChar mth ',') then
    Except.error "Cors: Allowed methods formatted incorrectly, should be a comma separated list of methods"
  else
    Except.ok c

/-- `Cors.isPreflight`: method is `OPTIONS` and the
`Access-Control-Request-Method` header is non-empty. -/
def isPreflight (r : Request) : Bool :=
  r.method == "OPTIONS" && r.getHeader "Access-Control-Request-Method" != ""

/-- `Cors.shouldHandleCors`, with the regex engine abstracted as `m`
(`none` = error from `regexp.MatchString`): iterate the allowed origins;
`*` admits immediately; a `^…$`-delimited entry is tried as a regex and
admits when the match succeeds without error; an entry equal to the
origin admits; otherwise continue with the rest of the list. -/
def shouldHandleCors (m : String → String → Option Bool) :
    List String → String → Bool
  | [], _ => false
  | a :: rest, origin =>
    if a == "*" then true
    else if (strStartsWith a "^" && strEndsWith a "$") && (m a origin).getD false then true
    else if origin == a then true
    else shouldHandleCors m rest origin

/-- Modelled from the spec: the helper `contains` is called by
`ServeHTTP` in `cors.go` but its definition is not among the provided
source files; per the spec it tests whether the `allowed_headers` list
contains the wildcard token. -/
def contains (l : List String) (s : String) : Bool :=
  l.any (fun x => x == s)

/-- `Cors.setHeader`: write the header only when `OverrideExistingCors`
is set (the write itself is `http.Header.Set`). -/
def setHeader (c : Cors) (w : Headers) (name value : String) : Headers :=
  if c.overrideExistingCors then headerSet w name value else w

/-- `responseWriter.HandleHeader` (defined in the source, never called on
the request path): keep an existing value unless overriding, otherwise
delete-then-set. -/
def HandleHeader (c : Cors) (w : Headers) (header value : String) : Headers :=
  let headerExists := headerGet w header != ""
  if headerExists && !c.overrideExistingCors then w
  else headerSet (if headerExists then w.filter (fun p => p.1 ≠ header) else w) header value

/-- `responseWriter.WriteHeader` (defined in the source, never called on
the request path): when overriding, delete every response header whose
name starts with `Access-Control-`. -/
def WriteHeader (c : Cors) (w : Headers) : Headers :=
  if c.overrideExistingCors then
    w.filter (fun p => ¬ strStartsWith p.1 "Access-Control-")
  else w

/-- Result of one `ServeHTTP` invocation: the response header map as the
middleware leaves it, and how many times the next handler was invoked. -/
structure ServeResult where
  headers : Headers
  nextCalls : Nat
deriving Repr, DecidableEq

/-- `Cors.ServeHTTP` (logging omitted; the loop over existing
`Access-Control-*` headers only logs and is dropped): pass through when
there is no `Origin` header; otherwise, when the origin is admitted,
conditionally write the CORS headers, branching on preflight; both paths
end by invoking the next handler once. -/
def serveHTTP (c : Cors) (m : String → String → Option Bool)
    (r : Request) (w : Headers) : ServeResult :=
  let origin := r.getHeader "Origin"
  if origin = "" then
    { headers := w, nextCalls := 1 }
  else
    let w :=
      if shouldHandleCors m c.allowedOrigins origin then
        let w := setHeader c w "Access-Control-Allow-Origin" origin
        let w := setHeader c w "Vary" "Access-Control-Allow-Origin"
        let w :=
          if isPreflight r then
            let w := setHeader c w "Access-Control-Allow-Methods"
              (String.intercalate ", " c.allowedMethods)
            let w :=
              if c.allowedHeaders.length > 0 then
                if contains c.allowedHeaders "*" then
                  setHeader c w "Access-Control-Allow-Headers"
                    (r.getHeader "Access-Control-Request-Headers")
                else
                  setHeader c w "Access-Control-Allow-Headers"
                    (String.intercalate ", " c.allowedHeaders)
              else w
            if c.maxAge > 0 then
              setHeader c w "Access-Control-Max-Age" (toString c.maxAge)
            else w
          else
            if c.exposedHeaders.length > 0 then
              setHeader c w "Access-Control-Expose-Headers"
                (String.intercalate ", " c.exposedHeaders)
            else w
        if c.allowCredentials then
          setHeader c w "Access-Control-Allow-Credentials" "true"
        else w
      else w
    { headers := w, nextCalls := 1 }

/-- One iteration of the `shouldHandleCors` loop as a predicate on a
single entry: wildcard, anchored regex match without error, or exact
equality with the origin. -/
def originMatchesEntry (m : String → String → Option Bool)
    (a origin : String) : Bool :=
  a == "*"
    || ((strStartsWith a "^" && strEndsWith a "$") && (m a origin).getD false)
    || origin == a

/-- The response header names `ServeHTTP` may pass to `setHeader`. -/
def corsHeaderNames : List String :=
  ["Access-Control-Allow-Origin", "Vary", "Access-Control-Allow-Methods",
   "Access-Control-Allow-Headers", "Access-Control-Max-Age",
   "Access-Control-Expose-Headers", "Access-Control-Allow-Credentials"]

/-- A regex engine that fails (returns an error) on every pattern; used
to instantiate theorems at concrete inputs. -/
def noRegex : String → String → Option Bool :=
  fun _ _ => none

/-- A configuration admitting every origin, with overriding enabled. -/
def overrideCfg : Cors :=
  { allowedOrigins := ["*"], overrideExistingCors := true,
    allowedMethods := ["GET"], allowCredentials := false, maxAge := 5,
    allowedHeaders := [], exposedHeaders := [] }

/-- The same configuration with overriding disabled. -/
def noOverrideCfg : Cors :=
  { overrideCfg with overrideExistingCors := false }

/-- A configuration left entirely to the defaults except for a negative
`max_age`. -/
def negMaxAgeCfg : Cors :=
  { allowedOrigins := [], overrideExistingCors := false,
    allowedMethods := [], allowCredentials := false, maxAge := -1,
    allowedHeaders := [], exposedHeaders := [] }

/-- A configuration with `max_age` above the cap. -/
def bigMaxAgeCfg : Cors :=
  { overrideCfg with maxAge := 100000 }

/-- What `Provision` followed by `Validate` makes of `negMaxAgeCfg`:
defaults filled in, the negative `max_age` untouched. -/
def negMaxAgeOut : Cors :=
  { allowedOrigins := ["*"], overrideExistingCors := false,
    allowedMethods := ["GET", "POST", "PUT", "DELETE", "PATCH", "OPTIONS"],
    allowCredentials := false, maxAge := -1, allowedHeaders := [],
    exposedHeaders := [] }

/-- The overriding configuration with wildcard `allowed_headers`. -/
def starHeadersCfg : Cors :=
  { overrideCfg with allowedHeaders := ["*"] }

/-- A simple cross-origin GET request from `http://example.com`. -/
def simpleReq : Request :=
  { method := "GET", headers := [("Origin", "http://example.com")] }

/-- A preflight request asking for method `POST` and header `X-Custom`. -/
def preflightReq : Request :=
  { method := "OPTIONS",
    headers := [("Origin", "http://example.com"),
                ("Access-Control-Request-Method", "POST"),
                ("Access-Control-Request-Headers", "X-Custom")] }

/-- Filtering out the pairs keyed `n` does not change a lookup for a
different key `k`. -/
theorem find?_filter_ne (w : Headers) (n k : String) (h : k ≠ n) :
    (w.filter (fun p => p.1 ≠ n)).find? (fun p => p.1 == k)
      = w.find? (fun p => p.1 == k) := by
  induction w with
  | nil => rfl
  | cons p rest ih =>
    by_cases hn : p.1 = n
    · have hpn : ¬ (decide (p.1 ≠ n) = true) := by simp [hn]
      have hpk : (p.1 == k) = false := by
        simp only [beq_eq_false_iff_ne, hn]
        exact fun he => h he.symm
      rw [List.filter_cons, if_neg hpn, ih]
      simp only [List.find?_cons, hpk]
    · have hpn : decide (p.1 ≠ n) = true := by simp [hn]
      rw [List.filter_cons, if_pos hpn]
      by_cases hk : p.1 = k
      · have hpk : (p.1 == k) = true := by simp [hk]
        simp only [List.find?_cons, hpk]
      · have hpk : (p.1 == k) = false := by simp [hk]
        simp only [List.find?_cons, hpk, ih]

/-- Reading through a `headerSet`: the set key returns the new value,
every other key is unchanged. -/
theorem headerGet_headerSet (w : Headers) (n v k : String) :
    headerGet (headerSet w n v) k = if k = n then v else headerGet w k := by
  by_cases h : k = n
  · subst h
    unfold headerGet headerSet
    rw [if_pos rfl]
    simp only [List.find?_cons, beq_self_eq_true]
  · unfold headerGet headerSet
    have hb : ((n, v).1 == k) = false := by
      simp only [beq_eq_false_iff_ne]
      exact fun he => h he.symm
    rw [if_neg h]
    simp only [List.find?_cons, hb, find?_filter_ne w n k h]

/-- Reading through a `setHeader` at a different key is the identity. -/
theorem headerGet_setHeader_ne (c : Cors) (w : Headers) (n v k : String)
    (h : k ≠ n) : headerGet (setHeader c w n v) k = headerGet w k := by
  unfold setHeader
  by_cases ho : c.overrideExistingCors <;> simp [ho, headerGet_headerSet, h]

/-- When not overriding, `setHeader` writes nothing. -/
theorem setHeader_of_not_override (c : Cors)
    (h : c.overrideExistingCors = false) (w : Headers) (n v : String) :
    setHeader c w n v = w := by
  simp [setHeader, h]

/-- When overriding, `setHeader` behaves as `headerSet`. -/
theorem headerGet_setHeader_override (c : Cors)
    (h : c.overrideExistingCors = true) (w : Headers) (n v k : String) :
    headerGet (setHeader c w n v) k = if k = n then v else headerGet w k := by
  simp [setHeader, h, headerGet_headerSet]

/-- The origin-defaulting step leaves `maxAge` alone. -/
theorem defaultOrigins_maxAge (c : Cors) :
    (defaultOrigins c).maxAge = c.maxAge := by
  unfold defaultOrigins
  split <;> rfl

/-- The method-defaulting step leaves `maxAge` alone. -/
theorem defaultMethods_maxAge (c : Cors) :
    (defaultMethods c).maxAge = c.maxAge := by
  unfold defaultMethods
  split <;> rfl

/-- `Provision` only turns a `maxAge` of 0 into 5. -/
theorem provision_maxAge (c : Cors) :
    (provision c).maxAge = if c.maxAge = 0 then 5 else c.maxAge := by
  unfold provision defaultMaxAge
  split
  · next h =>
    rw [defaultMethods_maxAge, defaultOrigins_maxAge] at h
    simp [h]
  · next h =>
    rw [defaultMethods_maxAge, defaultOrigins_maxAge] at h
    rw [defaultMethods_maxAge, defaultOrigins_maxAge, if_neg h]

/-- The clamping step caps `maxAge` at 86400. -/
theorem clampMaxAge_maxAge (c : Cors) :
    (clampMaxAge c).maxAge = if c.maxAge > 86400 then 86400 else c.maxAge := by
  unfold clampMaxAge
  split <;> rfl

/-- The clamping step leaves `allowedMethods` alone. -/
theorem clampMaxAge_allowedMethods (c : Cors) :
    (clampMaxAge c).allowedMethods = c.allowedMethods := by
  unfold clampMaxAge
  split <;> rfl

/-- `shouldHandleCors` is exactly "some entry of the list matches". -/
theorem shouldHandleCors_iff (m : String → String → Option Bool)
    (l : List String) (origin : String) :
    shouldHandleCors m l origin = true
      ↔ ∃ a ∈ l, originMatchesEntry m a origin = true := by
  induction l with
  | nil =>
    constructor
    · intro h
      cases h
    · rintro ⟨a, ha, _⟩
      cases ha
  | cons a rest ih =>
    constructor
    · intro h
      simp only [shouldHandleCors] at h
      by_cases h1 : (a == "*") = true
      · exact ⟨a, List.mem_cons_self a rest, by simp [originMatchesEntry, h1]⟩
      · rw [if_neg h1] at h
        by_cases h2 : ((strStartsWith a "^" && strEndsWith a "$") && (m a origin).getD false) = true
        · exact ⟨a, List.mem_cons_self a rest, by simp [originMatchesEntry, h2]⟩
        · rw [if_neg h2] at h
          by_cases h3 : (origin == a) = true
          · exact ⟨a, List.mem_cons_self a rest, by simp [originMatchesEntry, h3]⟩
          · rw [if_neg h3] at h
            obtain ⟨x, hx, hm⟩ := ih.mp h
            exact ⟨x, List.mem_cons_of_mem a hx, hm⟩
    · rintro ⟨x, hx, hm⟩
      simp only [shouldHandleCors]
      rcases List.mem_cons.mp hx with rfl | hx'
      · unfold originMatchesEntry at hm
        by_cases h1 : (x == "*") = true
        · rw [if_pos h1]
        · rw [if_neg h1]
          by_cases h2 : ((strStartsWith x "^" && strEndsWith x "$") && (m x origin).getD false) = true
          · rw [if_pos h2]
          · rw [if_neg h2]
            simp only [Bool.or_eq_true] at hm
            rcases hm with (hm | hm) | hm
            · exact absurd hm h1
            · exact absurd hm h2
            · rw [if_pos hm]
      · split
        · rfl
        · split
          · rfl
          · split
            · rfl
            · exact ih.mpr ⟨x, hx', hm⟩

/-- C6: `isPreflight` holds exactly when the method is `OPTIONS` and the
`Access-Control-Request-Method` request header is present and non-empty
(absent and empty coincide under `Header.Get`); a bare `OPTIONS` request
is not a preflight. -/
theorem C6_isPreflight_iff (r : Request) :
    isPreflight r = true ↔
      (r.method = "OPTIONS" ∧ r.getHeader "Access-Control-Request-Method" ≠ "") := by
  simp [isPreflight]

/-- C7: a request without an `Origin` header passes through: the response
header map is returned unchanged and the next handler is invoked exactly
once. -/
theorem C7_no_origin_passthrough (c : Cors) (m : String → String → Option Bool)
    (r : Request) (w : Headers) (h : r.getHeader "Origin" = "") :
    serveHTTP c m r w = { headers := w, nextCalls := 1 } := by
  simp [serveHTTP, h]

/-- Witness for C7 at a concrete origin-less request. -/
theorem C7_no_origin_passthrough_witness :
    Request.getHeader { method := "GET", headers := [] } "Origin" = ""
      ∧ serveHTTP overrideCfg noRegex { method := "GET", headers := [] } [("X-Test", "y")]
          = { headers := [("X-Test", "y")], nextCalls := 1 } :=
  ⟨rfl, C7_no_origin_passthrough overrideCfg noRegex
    { method := "GET", headers := [] } [("X-Test", "y")] rfl⟩

/-- C8: `Validate` fails exactly when some `allowed_methods` entry
contains a comma; entries without commas pass the check. -/
theorem C8_validate_error_iff_comma (c : Cors) :
    (∃ e, validate c = Except.error e)
      ↔ ∃ mth ∈ c.allowedMethods, strContainsChar mth ',' = true := by
  unfold validate
  rw [show (∃ mth ∈ c.allowedMethods, strContainsChar mth ',' = true)
        ↔ (clampMaxAge c).allowedMethods.any (fun mth => strContainsChar mth ',') = true from by
      rw [List.any_eq_true, clampMaxAge_allowedMethods]]
  by_cases h : (clampMaxAge c).allowedMethods.any (fun mth => strContainsChar mth ',') = true
  · simp [h]
  · simp [h]

/-- C4: when the regex engine errors on a `^…$`-delimited entry, origin
matching still returns a result: the regex check of that entry behaves
as a non-match, and the entry's exact comparison and the remaining
entries still decide admission. -/
theorem C4_regex_error_is_nonmatch (m : String → String → Option Bool)
    (a origin : String) (rest : List String)
    (hp : strStartsWith a "^" = true) (_hs : strEndsWith a "$" = true)
    (he : m a origin = none) :
    shouldHandleCors m (a :: rest) origin
      = (origin == a || shouldHandleCors m rest origin) := by
  have h1 : ¬ ((a == "*") = true) := by
    simp only [beq_iff_eq]
    intro h
    rw [h] at hp
    exact absurd hp (by decide)
  have h2 : ¬ (((strStartsWith a "^" && strEndsWith a "$") && (m a origin).getD false) = true) := by
    simp [he]
  simp only [shouldHandleCors]
  rw [if_neg h1, if_neg h2]
  cases h3 : (origin == a) <;> simp [h3]

/-- Witness for C4: an always-erroring regex engine on the malformed
anchored pattern `^[$`; the later exact entry still admits the origin. -/
theorem C4_regex_error_is_nonmatch_witness :
    (strStartsWith "^[$" "^" = true ∧ strEndsWith "^[$" "$" = true
      ∧ noRegex "^[$" "http://a.com" = none)
    ∧ shouldHandleCors noRegex ["^[$", "http://a.com"] "http://a.com"
        = ("http://a.com" == "^[$"
            || shouldHandleCors noRegex ["http://a.com"] "http://a.com") :=
  ⟨⟨by decide, by decide, rfl⟩,
   C4_regex_error_is_nonmatch noRegex "^[$" "http://a.com" ["http://a.com"]
     (by decide) (by decide) rfl⟩

/-- C5: a wildcard entry anywhere in `allowed_origins` admits every
origin, and in general admission holds exactly when some entry of the
list matches (wildcard, regex without error, or exact), so order affects
only which entry matches first, never the outcome. -/
theorem C5_wildcard_and_first_match (m : String → String → Option Bool)
    (l : List String) (origin : String) :
    (("*" ∈ l) → shouldHandleCors m l origin = true)
    ∧ (shouldHandleCors m l origin = true
        ↔ ∃ a ∈ l, originMatchesEntry m a origin = true) :=
  ⟨fun hmem => (shouldHandleCors_iff m l origin).mpr
      ⟨"*", hmem, by simp [originMatchesEntry]⟩,
   shouldHandleCors_iff m l origin⟩

/-- Witness for C5: a trailing wildcard admits an origin no other entry
matches. -/
theorem C5_wildcard_and_first_match_witness :
    shouldHandleCors noRegex ["http://a.com", "*"] "http://zzz.com" = true :=
  (C5_wildcard_and_first_match noRegex ["http://a.com", "*"] "http://zzz.com").1
    (by decide)

/-- C1: with `override_existing_cors` false, an admitted cross-origin
request produces no header write at all — the response header map is
returned exactly as given — and the next handler is still invoked once. -/
theorem C1_no_override_no_writes (c : Cors) (m : String → String → Option Bool)
    (r : Request) (w : Headers)
    (hov : c.overrideExistingCors = false)
    (ho : r.getHeader "Origin" ≠ "")
    (hadm : shouldHandleCors m c.allowedOrigins (r.getHeader "Origin") = true) :
    serveHTTP c m r w = { headers := w, nextCalls := 1 } := by
  simp [serveHTTP, ho, hadm, setHeader_of_not_override c hov]

/-- Witness for C1: an admitted request against `noOverrideCfg` leaves a
response map with a conflicting `Vary` header untouched. -/
theorem C1_no_override_no_writes_witness :
    (noOverrideCfg.overrideExistingCors = false
      ∧ simpleReq.getHeader "Origin" ≠ ""
      ∧ shouldHandleCors noRegex noOverrideCfg.allowedOrigins
          (simpleReq.getHeader "Origin") = true)
    ∧ serveHTTP noOverrideCfg noRegex simpleReq [("Vary", "Accept-Encoding")]
        = { headers := [("Vary", "Accept-Encoding")], nextCalls := 1 } :=
  ⟨⟨rfl, by decide, by decide⟩,
   C1_no_override_no_writes noOverrideCfg noRegex simpleReq
     [("Vary", "Accept-Encoding")] rfl (by decide) (by decide)⟩

/-- C2 counterexample: a configured `max_age` of −1 passes `Provision`
and `Validate` unchanged, so the validated policy violates `0 ≤ max_age`. -/
theorem C2_negative_maxAge_counterexample :
    validate (provision negMaxAgeCfg) = Except.ok negMaxAgeOut
      ∧ negMaxAgeOut.maxAge < 0 :=
  ⟨rfl, by decide⟩

/-- C2 amended: after `Provision` and `Validate`, `max_age` is at most
86400 (values above are clamped rather than rejected); the lower bound
`0 ≤ max_age` holds provided the configured `max_age` was nonnegative
(a negative configured value is passed through unchanged). -/
theorem C2_maxAge_clamped (c c' : Cors) (h0 : 0 ≤ c.maxAge)
    (h : validate (provision c) = Except.ok c') :
    0 ≤ c'.maxAge ∧ c'.maxAge ≤ 86400 := by
  simp only [validate] at h
  split at h
  · exact Except.noConfusion h
  · have hc : clampMaxAge (provision c) = c' := Except.ok.inj h
    subst hc
    rw [clampMaxAge_maxAge, provision_maxAge]
    constructor <;> split_ifs <;> omega

/-- Witness for C2: `max_age = 100000` validates to exactly 86400. -/
theorem C2_maxAge_clamped_witness :
    (0 ≤ bigMaxAgeCfg.maxAge)
    ∧ (0 ≤ ({ bigMaxAgeCfg with maxAge := 86400 } : Cors).maxAge
        ∧ ({ bigMaxAgeCfg with maxAge := 86400 } : Cors).maxAge ≤ 86400) :=
  ⟨by decide,
   C2_maxAge_clamped bigMaxAgeCfg { bigMaxAgeCfg with maxAge := 86400 }
     (by decide) rfl⟩

/-- C3 counterexample: `setHeader` writes `Vary` through `Header().Set`,
which replaces; on an admitted request with overriding enabled a
pre-existing `Vary: Accept-Encoding` is overwritten, not preserved
alongside an appended value as the claim states. -/
theorem C3_vary_not_appended_counterexample :
    headerGet (serveHTTP overrideCfg noRegex simpleReq
        [("Vary", "Accept-Encoding")]).headers "Vary"
      = "Access-Control-Allow-Origin"
    ∧ ("Vary", "Accept-Encoding")
        ∉ (serveHTTP overrideCfg noRegex simpleReq
            [("Vary", "Accept-Encoding")]).headers := by
  decide

/-- C3 amended: on an admitted request with overriding enabled,
`Access-Control-Allow-Origin` is set to the literal request `Origin`
value (never the wildcard token, whatever entry admitted it), and `Vary`
is set — replacing any pre-existing value — to
`Access-Control-Allow-Origin`. -/
theorem C3_allow_origin_literal_vary_set (c : Cors)
    (m : String → String → Option Bool) (r : Request) (w : Headers)
    (hov : c.overrideExistingCors = true)
    (ho : r.getHeader "Origin" ≠ "")
    (hadm : shouldHandleCors m c.allowedOrigins (r.getHeader "Origin") = true) :
    headerGet (serveHTTP c m r w).headers "Access-Control-Allow-Origin"
        = r.getHeader "Origin"
    ∧ headerGet (serveHTTP c m r w).headers "Vary"
        = "Access-Control-Allow-Origin" := by
  simp only [serveHTTP, ho, if_false, hadm, if_true]
  constructor <;>
  · repeat' split
    all_goals simp [headerGet_setHeader_override c hov]

/-- Witness for C3 (amended) on a concrete admitted request. -/
theorem C3_allow_origin_literal_vary_set_witness :
    (overrideCfg.overrideExistingCors = true
      ∧ simpleReq.getHeader "Origin" ≠ ""
      ∧ shouldHandleCors noRegex overrideCfg.allowedOrigins
          (simpleReq.getHeader "Origin") = true)
    ∧ (headerGet (serveHTTP overrideCfg noRegex simpleReq []).headers
          "Access-Control-Allow-Origin" = simpleReq.getHeader "Origin"
        ∧ headerGet (serveHTTP overrideCfg noRegex simpleReq []).headers
            "Vary" = "Access-Control-Allow-Origin") :=
  ⟨⟨rfl, by decide, by decide⟩,
   C3_allow_origin_literal_vary_set overrideCfg noRegex simpleReq []
     rfl (by decide) (by decide)⟩

/-- C9: on an admitted preflight request with overriding enabled, the
`Access-Control-Allow-Headers` response header echoes the request's
`Access-Control-Request-Headers` value when `allowed_headers` contains
the wildcard token, is the configured list joined by `", "` when it does
not, and is not written at all when `allowed_headers` is empty. -/
theorem C9_allowed_headers_cases (c : Cors)
    (m : String → String → Option Bool) (r : Request) (w : Headers)
    (hov : c.overrideExistingCors = true)
    (ho : r.getHeader "Origin" ≠ "")
    (hadm : shouldHandleCors m c.allowedOrigins (r.getHeader "Origin") = true)
    (hpre : isPreflight r = true) :
    (c.allowedHeaders ≠ [] → contains c.allowedHeaders "*" = true →
        headerGet (serveHTTP c m r w).headers "Access-Control-Allow-Headers"
          = r.getHeader "Access-Control-Request-Headers")
    ∧ (c.allowedHeaders ≠ [] → contains c.allowedHeaders "*" = false →
        headerGet (serveHTTP c m r w).headers "Access-Control-Allow-Headers"
          = String.intercalate ", " c.allowedHeaders)
    ∧ (c.allowedHeaders = [] →
        headerGet (serveHTTP c m r w).headers "Access-Control-Allow-Headers"
          = headerGet w "Access-Control-Allow-Headers") := by
  simp only [serveHTTP, ho, if_false, hadm, if_true, hpre]
  refine ⟨fun hne hstar => ?_, fun hne hstar => ?_, fun hemp => ?_⟩
  · have hlen : 0 < c.allowedHeaders.length := List.length_pos.mpr hne
    simp only [hlen, if_true, hstar]
    repeat' split
    all_goals simp_all [headerGet_setHeader_override c hov]
  · have hlen : 0 < c.allowedHeaders.length := List.length_pos.mpr hne
    simp only [hlen, if_true, hstar]
    repeat' split
    all_goals simp_all [headerGet_setHeader_override c hov]
  · simp only [hemp]
    repeat' split
    all_goals simp_all [headerGet_setHeader_override c hov]

/-- Witness for C9: a concrete preflight request against the wildcard
`allowed_headers` policy echoes `X-Custom`. -/
theorem C9_allowed_headers_cases_witness :
    (starHeadersCfg.overrideExistingCors = true
      ∧ preflightReq.getHeader "Origin" ≠ ""
      ∧ shouldHandleCors noRegex starHeadersCfg.allowedOrigins
          (preflightReq.getHeader "Origin") = true
      ∧ isPreflight preflightReq = true
      ∧ starHeadersCfg.allowedHeaders ≠ []
      ∧ contains starHeadersCfg.allowedHeaders "*" = true)
    ∧ headerGet (serveHTTP starHeadersCfg noRegex preflightReq []).headers
        "Access-Control-Allow-Headers"
      = preflightReq.getHeader "Access-Control-Request-Headers" :=
  ⟨⟨rfl, by decide, by decide, by decide, by decide, by decide⟩,
   (C9_allowed_headers_cases starHeadersCfg noRegex preflightReq []
       rfl (by decide) (by decide) (by decide)).1 (by decide) (by decide)⟩

/-- C10: the middleware never deletes a response header it does not
itself set: for any header name outside the seven names `ServeHTTP` may
write, the value after processing equals the value before (in particular
the `WriteHeader` stripping pass is never applied on the request path). -/
theorem C10_foreign_headers_preserved (c : Cors)
    (m : String → String → Option Bool) (r : Request) (w : Headers)
    (k : String) (hk : k ∉ corsHeaderNames) :
    headerGet (serveHTTP c m r w).headers k = headerGet w k := by
  simp only [corsHeaderNames] at hk
  simp at hk
  obtain ⟨h1, h2, h3, h4, h5, h6, h7⟩ := hk
  by_cases ho : r.getHeader "Origin" = ""
  · simp [serveHTTP, ho]
  · by_cases hadm : shouldHandleCors m c.allowedOrigins (r.getHeader "Origin") = true
    · simp only [serveHTTP, ho, if_false, hadm, if_true]
      repeat' split
      all_goals simp [headerGet_setHeader_ne, h1, h2, h3, h4, h5, h6, h7]
    · simp [serveHTTP, ho, hadm]

/-- Witness for C10: a pre-existing `Access-Control-Foo` header (which
the stripping pass would delete) survives an admitted overriding
request unchanged. -/
theorem C10_foreign_headers_preserved_witness :
    ("Access-Control-Foo" ∉ corsHeaderNames)
    ∧ headerGet (serveHTTP overrideCfg noRegex simpleReq
          [("Access-Control-Foo", "bar")]).headers "Access-Control-Foo"
      = headerGet [("Access-Control-Foo", "bar")] "Access-Control-Foo" :=
  ⟨by decide,
   C10_foreign_headers_preserved overrideCfg noRegex simpleReq
     [("Access-Control-Foo", "bar")] "Access-Control-Foo" (by decide)⟩

end CaddyCors
